import Mathlib

/-!
Verification development for the `gst` git-search command-line tool
(`main.go`).

Go strings are modelled as Lean `String` (a wrapper around `List Char`):
the program only manipulates git output, where Go's byte indexing and
Lean's character indexing agree on the fields being sliced (hex hashes).
Go standard-library functions used by the code (`strings.Split` with a
one-character separator, `strings.TrimSpace`) are embedded by their
documented semantics as structurally recursive functions so that every
definition evaluates.

External process execution (`exec.Command(...).Output()`) is modelled by
an `ExecResult` value supplied by an abstract backend: the program never
inspects anything about the subprocess beyond its standard output and
its error/exit status, so each operation becomes a pure function of that
result.  A Go runtime panic (slice bounds out of range on `hash[:8]`) is
modelled as `Option.none` on the output of the operation that panics.
-/

/-- Go `unicode.IsSpace` restricted to the ASCII whitespace characters
(the only ones git emits around its output). -/
def isSpaceChar (c : Char) : Bool :=
  c = ' ' || c = '\t' || c = '\n' || c = '\r' || c = '\x0b' || c = '\x0c'

/-- Core of Go `strings.Split` with a one-character separator, on the
character list of the string: `splitChars sep s` is the list of maximal
chunks of `s` between occurrences of `sep`.  On the empty list it yields
`[[]]`, matching Go's `strings.Split("", sep) == []string{""}`. -/
def splitChars (sep : Char) : List Char → List (List Char)
  | [] => [[]]
  | c :: cs =>
    if c = sep then [] :: splitChars sep cs
    else
      match splitChars sep cs with
      | [] => [[c]]
      | f :: rest => (c :: f) :: rest

/-- Go `strings.Split(s, sep)` for a one-character separator. -/
def goSplit (s : String) (sep : Char) : List String :=
  (splitChars sep s.data).map String.mk

/-- Go `strings.TrimSpace`: drop leading and trailing whitespace. -/
def goTrimSpace (s : String) : String :=
  String.mk (((s.data.dropWhile isSpaceChar).reverse.dropWhile isSpaceChar).reverse)

/-- The first 8 characters of `s` (the value of Go `s[:8]` when it does
not panic). -/
def short8 (s : String) : String :=
  String.mk (s.data.take 8)

/-- Go `s[:8]`: the first 8 characters of `s`; `none` models the runtime
panic (`slice bounds out of range`) raised when `s` is shorter than 8. -/
def take8 (s : String) : Option String :=
  if 8 ≤ s.length then some (short8 s) else none

deriving instance DecidableEq for Except

/-- Outcome of one external `git` invocation, as observed through Go's
`cmd.Output()`: captured standard output on success, or the exit status
when the process ran and failed, or a start-up failure with no status. -/
inductive ExecResult where
  | ok (stdout : String)
  | exitErr (code : Nat)
  | startErr
deriving Repr, DecidableEq

/-- One commit row of `searchInCommitHistory` (the Go code stores it as a
`map[string]string` with exactly these four keys). -/
structure CommitRecord where
  hash : String
  author : String
  date : String
  subject : String
deriving Repr, DecidableEq

/-- The record of `getLastCommitDetails` (a `map[string]string` with
exactly these six keys in the Go code). -/
structure CommitDetails where
  hash : String
  author : String
  email : String
  date : String
  subject : String
  body : String
deriving Repr, DecidableEq

/-- `getLastCommitDetails` (main.go 47-75): split the trimmed output of
`git log -1 --pretty=format:%H|%an|%ae|%ad|%s|%b` on `|`; fewer than 5
fields is a format error; field 6, when present, is the body. -/
def getLastCommitDetails (r : ExecResult) : Except String CommitDetails :=
  match r with
  | ExecResult.ok output =>
    let parts := goSplit (goTrimSpace output) '|'
    if parts.length < 5 then
      Except.error "unexpected git log output format"
    else
      Except.ok
        ⟨parts.getD 0 "", parts.getD 1 "", parts.getD 2 "", parts.getD 3 "",
         parts.getD 4 "", if 5 < parts.length then parts.getD 5 "" else ""⟩
  | _ => Except.error "failed to get commit details"

/-- Loop body of `searchInCommitHistory` (main.go 92-106): an empty line
is skipped, a line with at least 4 pipe-separated fields becomes a
record, any other line is skipped. -/
def parseCommitLine (line : String) : Option CommitRecord :=
  if line = "" then none
  else
    let parts := goSplit line '|'
    if 4 ≤ parts.length then
      some ⟨parts.getD 0 "", parts.getD 1 "", parts.getD 2 "", parts.getD 3 ""⟩
    else none

/-- The list parse of `searchInCommitHistory`: per-line, skip-and-continue. -/
def parseHistoryLines (lines : List String) : List CommitRecord :=
  lines.filterMap parseCommitLine

/-- `searchInCommitHistory` (main.go 78-110).  The `maxResults` cap is
passed to the backend (`git log -<n>`), not applied here; any invocation
failure is an error, success output is split into lines and parsed. -/
def searchInCommitHistory (r : ExecResult) : Except String (List CommitRecord) :=
  match r with
  | ExecResult.ok output =>
      Except.ok (parseHistoryLines (goSplit (goTrimSpace output) '\n'))
  | _ => Except.error "failed to search commit history"

/-- `searchInFiles` (main.go 113-134): exit status 1 means `git grep`
found no matches and yields an empty list; any other failure is an
error; success output is split into lines and capped at `maxResults`. -/
def searchInFiles (r : ExecResult) (maxResults : Nat) : Except String (List String) :=
  match r with
  | ExecResult.ok output =>
      Except.ok ((goSplit (goTrimSpace output) '\n').take maxResults)
  | ExecResult.exitErr 1 => Except.ok []
  | _ => Except.error "failed to search in files"

/-- `displayLastCommit` (main.go 136-155): lines written for the last
commit; an error from the detail fetch is logged and the function
returns; `none` models the panic of `details["hash"][:8]`. -/
def displayLastCommit (r : ExecResult) : Option (List String) :=
  match getLastCommitDetails r with
  | Except.error e => some ["Error getting commit details: " ++ e]
  | Except.ok d =>
    match take8 d.hash with
    | none => none
    | some h8 =>
      some (["Hash:    " ++ h8,
             "Author:  " ++ d.author ++ " <" ++ d.email ++ ">",
             "Date:    " ++ d.date,
             "Subject: " ++ d.subject] ++
            (if d.body ≠ "" then ["Body:    " ++ d.body] else []))

/-- The hard-coded reference hash of `performSearch` (main.go 182). -/
def pinnedHash : String := "64fc5dd7"

/-- One rendered commit row: Go `fmt.Printf("%d. [%s] %s - %s (%s)\n", i+1, ...)`
(main.go 193-195 and 209-211). -/
def commitLine (i : Nat) (h8 : String) (c : CommitRecord) : String :=
  toString (i + 1) ++ ". [" ++ h8 ++ "] " ++ c.subject ++ " - " ++ c.author ++
    " (" ++ c.date ++ ")"

/-- Rendering loop of the first stage (main.go 191-197): print a row only
when the 8-character short-hash equals the pinned hash; `none` models the
panic of `commit["hash"][:8]` on a hash shorter than 8. -/
def renderStage1 : Nat → List CommitRecord → Option (List String)
  | _, [] => some []
  | i, c :: rest =>
    match take8 c.hash with
    | none => none
    | some h8 =>
      match renderStage1 (i + 1) rest with
      | none => none
      | some ls =>
        some ((if h8 = pinnedHash then [commitLine i h8 c] else []) ++ ls)

/-- Rendering loop of the second stage (main.go 208-212): one row per
commit; `none` models the panic of `commit["hash"][:8]`. -/
def renderStage2 : Nat → List CommitRecord → Option (List String)
  | _, [] => some []
  | i, c :: rest =>
    match take8 c.hash with
    | none => none
    | some h8 =>
      match renderStage2 (i + 1) rest with
      | none => none
      | some ls => some (commitLine i h8 c :: ls)

/-- Per-stage outcome aggregated by the dispatcher: a logged error, an
explicit "no matches" marker, or the rendered result rows. -/
inductive StageOutcome where
  | failed (msg : String)
  | noMatches
  | rendered (ls : List String)
deriving Repr, DecidableEq

/-- Stage 1 of `performSearch` (main.go 182-198): history search limited
to 1 result, rows filtered by the pinned hash.  `none` is a panic. -/
def stage1Outcome (r : ExecResult) : Option StageOutcome :=
  match searchInCommitHistory r with
  | Except.error e => some (StageOutcome.failed e)
  | Except.ok commits =>
    if commits.length = 0 then some StageOutcome.noMatches
    else (renderStage1 0 commits).map StageOutcome.rendered

/-- Stage 2 of `performSearch` (main.go 200-213): history search with cap
10, every row rendered.  `none` is a panic. -/
def stage2Outcome (r : ExecResult) : Option StageOutcome :=
  match searchInCommitHistory r with
  | Except.error e => some (StageOutcome.failed e)
  | Except.ok commits =>
    if commits.length = 0 then some StageOutcome.noMatches
    else (renderStage2 0 commits).map StageOutcome.rendered

/-- The truncation notice of the file stage (main.go 227). -/
def truncationNotice : String := "... (showing first 20 matches)"

/-- Stage 3 of `performSearch` (main.go 215-229): file search with cap
20; a numbered row per match, and the truncation notice exactly when
`len(fileMatches) == 20`.  This stage slices no hash, so it cannot panic. -/
def stage3Outcome (r : ExecResult) : StageOutcome :=
  match searchInFiles r 20 with
  | Except.error e => StageOutcome.failed e
  | Except.ok fileMatches =>
    if fileMatches.length = 0 then StageOutcome.noMatches
    else
      StageOutcome.rendered
        ((fileMatches.enum.map fun p => toString (p.1 + 1) ++ ". " ++ p.2) ++
         (if fileMatches.length = 20 then [truncationNotice] else []))

/-- The per-query view of the backend: `history n` is the result of
`git log --grep=<query> -i -<n> --pretty=format:%H|%an|%ad|%s` and
`grep` the result of `git grep -n -i -- <query>`, for one fixed query. -/
structure Backend where
  history : Nat → ExecResult
  grep : ExecResult

/-- The report assembled by one `performSearch` dispatch. -/
structure SearchReport where
  stage1 : StageOutcome
  stage2 : StageOutcome
  stage3 : StageOutcome
deriving Repr, DecidableEq

/-- `performSearch` (main.go 179-232): the three stages run in fixed
order — history with limit 1, history with limit 10, file search with
limit 20 — each producing its own outcome; `none` models a panic inside
stage 1 or stage 2 (which in Go aborts the whole program, so no report
at all is produced). -/
def performSearchReport (b : Backend) : Option SearchReport :=
  match stage1Outcome (b.history 1) with
  | none => none
  | some s1 =>
    match stage2Outcome (b.history 10) with
    | none => none
    | some s2 => some ⟨s1, s2, stage3Outcome b.grep⟩

/-- `interactiveSearch` (main.go 157-177), as the list of queries
dispatched for a given list of input lines (end of the list is end of
input): trim the line; stop on a recognized exit token; skip an empty
line; otherwise dispatch the query and continue. -/
def interactiveSearch : List String → List String
  | [] => []
  | line :: rest =>
    let query := goTrimSpace line
    if query == "quit" || query == "exit" || query == "q" then []
    else if query == "" then interactiveSearch rest
    else query :: interactiveSearch rest

/-- Ten well-formed history lines, exactly the cap of the second stage. -/
def tenHistoryLines : String :=
  "aaaaaaaa|a|d|s\naaaaaaaa|a|d|s\naaaaaaaa|a|d|s\naaaaaaaa|a|d|s\naaaaaaaa|a|d|s\naaaaaaaa|a|d|s\naaaaaaaa|a|d|s\naaaaaaaa|a|d|s\naaaaaaaa|a|d|s\naaaaaaaa|a|d|s"

/-- Twenty file-match lines, exactly the cap of the file stage. -/
def twentyFileLines : String :=
  "f:1:x\nf:1:x\nf:1:x\nf:1:x\nf:1:x\nf:1:x\nf:1:x\nf:1:x\nf:1:x\nf:1:x\nf:1:x\nf:1:x\nf:1:x\nf:1:x\nf:1:x\nf:1:x\nf:1:x\nf:1:x\nf:1:x\nf:1:x\n"

/-- The rows the second stage renders for `tenHistoryLines`. -/
def renderedTenRows : List String :=
  ["1. [aaaaaaaa] s - a (d)", "2. [aaaaaaaa] s - a (d)", "3. [aaaaaaaa] s - a (d)",
   "4. [aaaaaaaa] s - a (d)", "5. [aaaaaaaa] s - a (d)", "6. [aaaaaaaa] s - a (d)",
   "7. [aaaaaaaa] s - a (d)", "8. [aaaaaaaa] s - a (d)", "9. [aaaaaaaa] s - a (d)",
   "10. [aaaaaaaa] s - a (d)"]

/-- C2: the file-content search maps backend exit status exactly 1 to an
empty, non-error result list; any other non-zero exit status (and any
start-up failure) yields an error. -/
theorem searchInFiles_exit_status (n c : Nat) (hc : c ≠ 1) :
    searchInFiles (ExecResult.exitErr 1) n = Except.ok [] ∧
    searchInFiles (ExecResult.exitErr c) n = Except.error "failed to search in files" ∧
    searchInFiles ExecResult.startErr n = Except.error "failed to search in files" := by
  refine ⟨rfl, ?_, rfl⟩
  match c, hc with
  | 0, _ => rfl
  | 1, hc => exact absurd rfl hc
  | (m + 2), _ => rfl

/-- Witness for C2 at limit 20 and exit status 2. -/
theorem searchInFiles_exit_status_witness :
    searchInFiles (ExecResult.exitErr 1) 20 = Except.ok [] ∧
    searchInFiles (ExecResult.exitErr 2) 20 = Except.error "failed to search in files" :=
  ⟨(searchInFiles_exit_status 20 2 (by decide)).1,
   (searchInFiles_exit_status 20 2 (by decide)).2.1⟩

/-- C3: short-hash display does use the first 8 characters of the hash,
but it does not fail gracefully on a shorter hash: both
`displayLastCommit` and the commit-rendering loops of `performSearch`
panic (slice bounds out of range, modelled as `none`) when the hash
field has fewer than 8 characters. -/
theorem short_hash_slice_panics :
    displayLastCommit
        (ExecResult.ok "abc|alice|alice@example.com|2024-01-01|subject") = none ∧
    performSearchReport
        ⟨fun _ => ExecResult.ok "abc|alice|2024-01-01|subject",
         ExecResult.exitErr 1⟩ = none ∧
    displayLastCommit
        (ExecResult.ok "0123456789abcdef|alice|alice@example.com|2024-01-01|subject") =
      some ["Hash:    01234567", "Author:  alice <alice@example.com>",
            "Date:    2024-01-01", "Subject: subject"] := by
  decide

/-- C7 (counterexample): on a successful backend run whose raw output is
empty, `searchInFiles` returns a one-element list holding the empty
string, not the empty list. -/
theorem searchInFiles_empty_output_singleton :
    searchInFiles (ExecResult.ok "") 20 = Except.ok [""] ∧
    (Except.ok [""] : Except String (List String)) ≠ Except.ok [] := by
  decide

/-- C7 (amended): raw output that is empty after trimming yields an
empty record list and no error in `searchInCommitHistory`; in
`searchInFiles` it yields no error but a one-element list holding the
empty string — the genuine no-match case of the file search is exit
status 1, which yields the empty list. -/
theorem empty_output_handling (s : String) (h : goTrimSpace s = "") :
    searchInCommitHistory (ExecResult.ok s) = Except.ok [] ∧
    searchInFiles (ExecResult.ok s) 20 = Except.ok [""] ∧
    searchInFiles (ExecResult.exitErr 1) 20 = Except.ok [] := by
  refine ⟨?_, ?_, rfl⟩
  · show Except.ok (parseHistoryLines (goSplit (goTrimSpace s) '\n')) = Except.ok []
    rw [h]
    decide
  · show Except.ok ((goSplit (goTrimSpace s) '\n').take 20) = Except.ok [""]
    rw [h]
    decide

/-- Witness for C7 (amended) on the empty raw output. -/
theorem empty_output_handling_witness :
    searchInCommitHistory (ExecResult.ok "") = Except.ok [] ∧
    searchInFiles (ExecResult.ok "") 20 = Except.ok [""] :=
  ⟨(empty_output_handling "" rfl).1, (empty_output_handling "" rfl).2.1⟩

/-- C10: in the single-commit detail fetch, with more than 6
pipe-separated fields only the 6th is stored as the body (everything
after it is dropped), and with exactly 5 fields the body is empty. -/
theorem detail_body_policy (output : String) :
    (6 < (goSplit (goTrimSpace output) '|').length →
      getLastCommitDetails (ExecResult.ok output) =
        Except.ok
          ⟨(goSplit (goTrimSpace output) '|').getD 0 "",
           (goSplit (goTrimSpace output) '|').getD 1 "",
           (goSplit (goTrimSpace output) '|').getD 2 "",
           (goSplit (goTrimSpace output) '|').getD 3 "",
           (goSplit (goTrimSpace output) '|').getD 4 "",
           (goSplit (goTrimSpace output) '|').getD 5 ""⟩) ∧
    ((goSplit (goTrimSpace output) '|').length = 5 →
      getLastCommitDetails (ExecResult.ok output) =
        Except.ok
          ⟨(goSplit (goTrimSpace output) '|').getD 0 "",
           (goSplit (goTrimSpace output) '|').getD 1 "",
           (goSplit (goTrimSpace output) '|').getD 2 "",
           (goSplit (goTrimSpace output) '|').getD 3 "",
           (goSplit (goTrimSpace output) '|').getD 4 "", ""⟩) := by
  constructor
  · intro h6
    simp only [getLastCommitDetails]
    rw [if_neg (by omega), if_pos (by omega)]
  · intro h5
    simp only [getLastCommitDetails]
    rw [if_neg (by omega), if_neg (by omega)]

/-- Witness for C10: a body containing the pipe separator is truncated
at its first pipe, and a 5-field line gets an empty body. -/
theorem detail_body_policy_witness :
    getLastCommitDetails (ExecResult.ok "h|a|e|d|s|first|second") =
      Except.ok ⟨"h", "a", "e", "d", "s", "first"⟩ ∧
    getLastCommitDetails (ExecResult.ok "h|a|e|d|s") =
      Except.ok ⟨"h", "a", "e", "d", "s", ""⟩ := by
  constructor
  · rw [(detail_body_policy "h|a|e|d|s|first|second").1 (by decide)]
    decide
  · rw [(detail_body_policy "h|a|e|d|s").2 (by decide)]
    decide

/-- C6: the list parse of the commit-history search skips a line with
fewer than 4 pipe-separated fields and keeps every other line's record,
while the single-commit detail fetch fails as a whole on output with
fewer than 5 pipe-separated fields. -/
theorem malformed_line_policy :
    (∀ (pre post : List String) (bad : String),
      (goSplit bad '|').length < 4 →
      parseHistoryLines (pre ++ bad :: post) = parseHistoryLines (pre ++ post)) ∧
    (∀ output : String,
      (goSplit (goTrimSpace output) '|').length < 5 →
      getLastCommitDetails (ExecResult.ok output) =
        Except.error "unexpected git log output format") := by
  constructor
  · intro pre post bad hbad
    have hnone : parseCommitLine bad = none := by
      by_cases he : bad = ""
      · simp [parseCommitLine, he]
      · simp only [parseCommitLine, if_neg he]
        rw [if_neg (by omega)]
    simp [parseHistoryLines, List.filterMap_append, List.filterMap_cons, hnone]
  · intro output h
    simp only [getLastCommitDetails]
    rw [if_pos h]

/-- Witness for C6: a 2-field line between two well-formed lines is
skipped, and a 3-field detail-fetch output is rejected whole. -/
theorem malformed_line_policy_witness :
    parseHistoryLines ["aaaaaaaa|a|d|s", "x|y", "bbbbbbbb|b|d|t"] =
      parseHistoryLines ["aaaaaaaa|a|d|s", "bbbbbbbb|b|d|t"] ∧
    getLastCommitDetails (ExecResult.ok "a|b|c") =
      Except.error "unexpected git log output format" :=
  ⟨malformed_line_policy.1 ["aaaaaaaa|a|d|s"] ["bbbbbbbb|b|d|t"] "x|y" (by decide),
   malformed_line_policy.2 "a|b|c" (by decide)⟩

/-- C8 (counterexample): the normalizers accept a line whose first
pipe-separated field is empty and then produce a record whose `hash`
field is the empty string. -/
theorem normalizer_accepts_empty_hash :
    searchInCommitHistory (ExecResult.ok "|alice|2024-01-01|subject") =
      Except.ok [⟨"", "alice", "2024-01-01", "subject"⟩] ∧
    getLastCommitDetails (ExecResult.ok "|alice|a@b.c|2024-01-01|subject") =
      Except.ok ⟨"", "alice", "a@b.c", "2024-01-01", "subject", ""⟩ ∧
    (CommitRecord.mk "" "alice" "2024-01-01" "subject").hash = "" := by
  decide

/-- C8 (amended): a produced record's `hash` is exactly the first
pipe-separated field of its source line, so it is non-empty precisely
when that field is; the normalizer itself never rejects an empty first
field. -/
theorem record_hash_is_first_field :
    (∀ (line : String) (r : CommitRecord),
      parseCommitLine line = some r →
      r.hash = (goSplit line '|').getD 0 "" ∧
      ((goSplit line '|').getD 0 "" ≠ "" → r.hash ≠ "")) ∧
    (∀ (output : String) (d : CommitDetails),
      getLastCommitDetails (ExecResult.ok output) = Except.ok d →
      d.hash = (goSplit (goTrimSpace output) '|').getD 0 "" ∧
      ((goSplit (goTrimSpace output) '|').getD 0 "" ≠ "" → d.hash ≠ "")) := by
  constructor
  · intro line r h
    have hh : r.hash = (goSplit line '|').getD 0 "" := by
      simp only [parseCommitLine] at h
      split at h
      · cases h
      · split at h
        · cases h
          rfl
        · cases h
    exact ⟨hh, fun hne => hh ▸ hne⟩
  · intro output d h
    have hh : d.hash = (goSplit (goTrimSpace output) '|').getD 0 "" := by
      simp only [getLastCommitDetails] at h
      split at h
      · cases h
      · cases h
        rfl
    exact ⟨hh, fun hne => hh ▸ hne⟩

/-- Witness for C8 (amended) on a well-formed line with full hash. -/
theorem record_hash_is_first_field_witness :
    (goSplit "aaaaaaaabbbb|alice|2024-01-01|subject" '|').getD 0 "" ≠ "" ∧
    ∀ r : CommitRecord,
      parseCommitLine "aaaaaaaabbbb|alice|2024-01-01|subject" = some r → r.hash ≠ "" := by
  refine ⟨by decide, fun r h => ?_⟩
  exact (record_hash_is_first_field.1 _ r h).2 (by decide)

/-- Helper: rendering the first stage on commits whose hashes all have
at least 8 characters keeps exactly the rows whose short-hash equals the
pinned hash, each numbered by its position in the fetched list. -/
theorem renderStage1_eq (cs : List CommitRecord) :
    ∀ i : Nat, (∀ c ∈ cs, 8 ≤ c.hash.length) →
    renderStage1 i cs =
      some ((cs.enumFrom i).filterMap fun p =>
        if short8 p.2.hash = pinnedHash then
          some (commitLine p.1 (short8 p.2.hash) p.2)
        else none) := by
  induction cs with
  | nil => intro i _; rfl
  | cons c rest ih =>
    intro i h
    have hc : 8 ≤ c.hash.length := h c (List.mem_cons_self c rest)
    have ht : take8 c.hash = some (short8 c.hash) := by simp [take8, hc]
    have hrest := ih (i + 1) (fun x hx => h x (List.mem_cons_of_mem c hx))
    simp only [renderStage1, ht, hrest, List.enumFrom, List.filterMap_cons]
    by_cases hp : short8 c.hash = pinnedHash
    · simp [hp]
    · simp [hp]

/-- C4: the first dispatch stage is a function of the limit-1 history
search alone (the report's first component always equals that stage's
own outcome), and its rendering keeps a fetched commit exactly when the
commit's 8-character short-hash equals the pinned hash "64fc5dd7". -/
theorem stage1_pinned_filter :
    (∀ (b : Backend) (rep : SearchReport),
      performSearchReport b = some rep →
      some rep.stage1 = stage1Outcome (b.history 1)) ∧
    (∀ cs : List CommitRecord, (∀ c ∈ cs, 8 ≤ c.hash.length) →
      renderStage1 0 cs =
        some (cs.enum.filterMap fun p =>
          if short8 p.2.hash = pinnedHash then
            some (commitLine p.1 (short8 p.2.hash) p.2)
          else none)) := by
  constructor
  · intro b rep h
    unfold performSearchReport at h
    cases h1 : stage1Outcome (b.history 1) with
    | none => rw [h1] at h; cases h
    | some s1 =>
      rw [h1] at h
      cases h2 : stage2Outcome (b.history 10) with
      | none => rw [h2] at h; cases h
      | some s2 =>
        rw [h2] at h
        cases h
        rfl
  · intro cs h
    simpa [List.enum] using renderStage1_eq cs 0 h

/-- Witness for C4: of two fetched commits only the one whose short-hash
is the pinned value is rendered, numbered by its fetch position. -/
theorem stage1_pinned_filter_witness :
    renderStage1 0
        [⟨"aaaaaaaabbbb", "bob", "2024-01-02", "other"⟩,
         ⟨"64fc5dd7abcd", "alice", "2024-01-01", "fix"⟩] =
      some ["2. [64fc5dd7] fix - alice (2024-01-01)"] := by
  rw [stage1_pinned_filter.2 _ (by decide)]
  decide

/-- C1: the dispatcher reports a per-stage outcome for every stage: a
backend failure in a history stage becomes that stage's `failed`
outcome rather than aborting the dispatch, the file stage turns its own
backend failure into `failed` (or `noMatches` for the no-match status
1), and whenever stages 1 and 2 produce an outcome the assembled report
carries each stage's own outcome, with the file stage's outcome a
function of the file backend result alone. -/
theorem dispatcher_stage_independence :
    (∀ c : Nat, stage1Outcome (ExecResult.exitErr c) =
      some (StageOutcome.failed "failed to search commit history")) ∧
    (∀ c : Nat, stage2Outcome (ExecResult.exitErr c) =
      some (StageOutcome.failed "failed to search commit history")) ∧
    (∀ c : Nat, stage3Outcome (ExecResult.exitErr c) =
      (if c = 1 then StageOutcome.noMatches
       else StageOutcome.failed "failed to search in files")) ∧
    (∀ (b : Backend) (s1 s2 : StageOutcome),
      stage1Outcome (b.history 1) = some s1 →
      stage2Outcome (b.history 10) = some s2 →
      performSearchReport b = some ⟨s1, s2, stage3Outcome b.grep⟩) := by
  refine ⟨fun c => rfl, fun c => rfl, ?_, ?_⟩
  · intro c
    match c with
    | 0 => rfl
    | 1 => rfl
    | (m + 2) => rfl
  · intro b s1 s2 h1 h2
    unfold performSearchReport
    rw [h1, h2]

/-- Witness for C1: both history stages fail, yet the report still
carries both failures and the file stage's rendered matches. -/
theorem dispatcher_stage_independence_witness :
    performSearchReport
        ⟨fun _ => ExecResult.exitErr 128, ExecResult.ok "main.go:10:x"⟩ =
      some ⟨StageOutcome.failed "failed to search commit history",
            StageOutcome.failed "failed to search commit history",
            StageOutcome.rendered ["1. main.go:10:x"]⟩ := by
  rw [dispatcher_stage_independence.2.2.2
        ⟨fun _ => ExecResult.exitErr 128, ExecResult.ok "main.go:10:x"⟩
        (StageOutcome.failed "failed to search commit history")
        (StageOutcome.failed "failed to search commit history")
        (dispatcher_stage_independence.1 128)
        (dispatcher_stage_independence.2.1 128)]
  decide

/-- C5 (counterexample): the commit-history stage emits no truncation
notice even when it returns exactly its cap of 10 results. -/
theorem history_cap_no_truncation_notice :
    stage2Outcome (ExecResult.ok tenHistoryLines) =
      some (StageOutcome.rendered renderedTenRows) ∧
    truncationNotice ∉ renderedTenRows ∧
    "... (showing first 10 matches)" ∉ renderedTenRows := by
  refine ⟨by decide, by decide, by decide⟩

/-- C5 (amended): only the file-content list carries a truncation
notice: the file stage returns at most 20 matches and renders its
numbered rows followed by the notice "... (showing first 20 matches)"
exactly in the case that the match count equals the cap 20. -/
theorem file_truncation_notice (r : ExecResult) (fileMatches : List String)
    (h : searchInFiles r 20 = Except.ok fileMatches) (hne : fileMatches ≠ []) :
    fileMatches.length ≤ 20 ∧
    stage3Outcome r = StageOutcome.rendered
      ((fileMatches.enum.map fun p => toString (p.1 + 1) ++ ". " ++ p.2) ++
       (if fileMatches.length = 20 then [truncationNotice] else [])) := by
  have hlen : fileMatches.length ≤ 20 := by
    cases r with
    | ok output =>
      simp only [searchInFiles, Except.ok.injEq] at h
      rw [← h, List.length_take]
      exact Nat.min_le_left _ _
    | exitErr code =>
      match code, h with
      | 0, h => cases h
      | 1, h =>
        simp only [searchInFiles, Except.ok.injEq] at h
        rw [← h]
        decide
      | (m + 2), h => cases h
    | startErr => cases h
  have h0 : ¬ fileMatches.length = 0 := by
    cases fileMatches with
    | nil => exact absurd rfl hne
    | cons a l => simp
  refine ⟨hlen, ?_⟩
  simp only [stage3Outcome, h]
  rw [if_neg h0]

/-- Witness for C5 (amended): a file search returning exactly 20 matches
renders the notice after the 20 numbered rows. -/
theorem file_truncation_notice_witness :
    stage3Outcome (ExecResult.ok twentyFileLines) =
      StageOutcome.rendered
        (((List.replicate 20 "f:1:x").enum.map
            fun p => toString (p.1 + 1) ++ ". " ++ p.2) ++
         [truncationNotice]) := by
  rw [(file_truncation_notice (ExecResult.ok twentyFileLines)
        (List.replicate 20 "f:1:x") (by decide) (by decide)).2]
  decide

/-- C9: for any sequence of input lines, the session loop dispatches
exactly the trimmed lines that precede the first case-sensitive exit
token ("quit", "exit" or "q"), with empty trimmed lines skipped; it
terminates at that token, or at end of input, without dispatching it. -/
theorem session_loop_dispatches (inputs : List String) :
    interactiveSearch inputs =
      ((inputs.map goTrimSpace).takeWhile
        (fun q => !(q == "quit" || q == "exit" || q == "q"))).filter
        (fun q => !(q == "")) := by
  induction inputs with
  | nil => rfl
  | cons line rest ih =>
    simp only [List.map_cons, List.takeWhile_cons, interactiveSearch]
    cases hq : (goTrimSpace line == "quit" || goTrimSpace line == "exit" ||
        goTrimSpace line == "q") with
    | true => rfl
    | false =>
      rw [if_neg (by decide)]
      simp only [Bool.not_false]
      rw [if_pos trivial]
      cases h0 : (goTrimSpace line == "") with
      | true =>
        rw [if_pos rfl, List.filter_cons]
        simp only [h0, Bool.not_true]
        rw [if_neg (by decide)]
        exact ih
      | false =>
        rw [if_neg (by decide), List.filter_cons]
        simp only [h0, Bool.not_false]
        rw [if_pos trivial, ih]
